import Mathlib

/-!
Shallow embedding of the admission/authentication core of the chisel
server (`src/server/server.go`, package `chserver`), together with proofs
of the specified properties.

Conventions:
* Go strings become `String`; byte slices holding text become `String`.
* A compiled `regexp.Regexp` is represented by its source pattern
  (`Regexp := String`); `regexp.Compile` is an external stdlib function
  and is passed in as a parameter `compile : String → Option Regexp`.
* The credential store (`settings.UserIndex` / `settings.Users`) and the
  session registry are repository code that is not under `src/`; they are
  modelled from the spec where noted.
* Fallible external effects (file reads, HTTP round trips, JSON
  unmarshalling, URL parsing) are parameters of the embedded functions, so
  each theorem quantifies over their outcomes.
-/

namespace ChServer

/-- A compiled address pattern, represented by its source text. -/
abbrev Regexp := String

/-- `settings.User`: a named user with a password and an ordered list of
compiled authorized-address patterns. -/
structure User where
  name : String
  pass : String
  addrs : List Regexp
  deriving DecidableEq, Repr

/-- Modelled from the spec: `settings.UserAllowAll`, the distinguished
allow-all address pattern used when no explicit ACL is given. -/
def UserAllowAll : Regexp := ""

/-- The in-memory credential store (`settings.UserIndex`), a mapping from
user name to user, represented as a list of users. -/
abbrev Store := List User

/-- Modelled from the spec: `Get(name) -> (User, found)` — look the name up
in the store. -/
def storeGet (store : Store) (name : String) : Option User :=
  store.find? (fun u => u.name = name)

/-- `Len()` of the credential store. -/
def storeLen (store : Store) : Nat := store.length

/-- Modelled from the spec: `settings.UserIndex.AddUser` — an add with a
duplicate name replaces the prior entry in place; otherwise the user is
appended. -/
def storeAddUser (store : Store) (u : User) : Store :=
  if store.any (fun v => v.name = u.name) then
    store.map (fun v => if v.name = u.name then u else v)
  else
    store ++ [u]

/-- The session registry (`settings.Users` held in `Server.sessions`):
a mapping from session ID to the authenticated identity. -/
abbrev Sessions := List (String × User)

/-- Modelled from the spec: `SessionRegistry.Set(sessionID, identity)` —
at most one entry per session ID, last writer wins. -/
def sessionsSet (sessions : Sessions) (id : String) (u : User) : Sessions :=
  (id, u) :: sessions.filter (fun p => p.1 ≠ id)

/-- Look a session ID up in the registry. -/
def sessionsGet (sessions : Sessions) (id : String) : Option User :=
  (sessions.find? (fun p => p.1 = id)).map (fun p => p.2)

/-- `Server.authUser` (the Local strategy): validate the user/password
combination against the credential store.  Returns the updated session
registry and `.ok ()` on acceptance, or `.error msg` on rejection.

Go source:
```
if s.users.Len() == 0 { return nil, nil }
n := c.User()
user, found := s.users.Get(n)
if !found || user.Pass != string(password) {
  return nil, errors.New("Invalid authentication for username: %s")
}
s.sessions.Set(string(c.SessionID()), user)
return nil, nil
```
-/
def authUser (store : Store) (sessions : Sessions)
    (username password sessionID : String) : Sessions × Except String Unit :=
  if storeLen store = 0 then
    (sessions, .ok ())
  else
    match storeGet store username with
    | none => (sessions, .error "Invalid authentication for username: %s")
    | some user =>
      if user.pass = password then
        (sessionsSet sessions sessionID user, .ok ())
      else
        (sessions, .error "Invalid authentication for username: %s")

/-- One HTTP response from the remote auth endpoint: the status code and
the body (`none` models a failure while reading the body stream). -/
structure HTTPResp where
  status : Nat
  body : Option String
  deriving DecidableEq, Repr

/-- `strings.Split(s, sep)` for a one-character separator, over the
character list of the string: splits around each instance of `sep`. -/
def goSplit (sep : Char) : List Char → List (List Char)
  | [] => [[]]
  | c :: rest =>
    match goSplit sep rest with
    | [] => [[c]]
    | first :: others =>
      if c = sep then [] :: first :: others else (c :: first) :: others

/-- The ACL lookup key computed by `authUserURL`:
`userNameParts := strings.Split(username, "@"); userNameACL := userNameParts[0]`
when `AuthURLAssumeUniqueUsernames` is set, the username verbatim
otherwise. -/
def userNameACLkey (assumeUnique : Bool) (username : String) : String :=
  if assumeUnique then
    match goSplit '@' username.data with
    | [] => ""
    | first :: _ => ⟨first⟩
  else username

/-- Result of one `authUserURL` call: the updated session registry, the
outcome, and how many times `LoadUserIndex` (the reload of the store from
its backing file) was invoked. -/
structure AuthURLResult where
  sessions : Sessions
  result : Except String Unit
  reloads : Nat
  deriving Repr

/-- `Server.authUserURL` (the RemoteURL strategy).

External effects are parameters: `marshalOk` is the outcome of
`json.Marshal(authData)`, `post` the outcome of the HTTP POST (`none` =
network error), `jsonValid` the outcome of `json.Unmarshal` on the body,
and `reloadedStore` the contents of the credential store after
`LoadUserIndex` re-reads the backing file.

Go source (abridged):
```
authDataJSON, err := json.Marshal(authData)
if err != nil { return nil, errors.New("Invalid authentication for username: %s") }
resp, err := s.authURLClient.Post(...)
if err != nil { return nil, errors.New("Invalid authentication for username: %s") }
if resp.StatusCode >= 200 && resp.StatusCode < 300 {
  body, err := ioutil.ReadAll(resp.Body)
  if err != nil { return nil, errors.New(...) }
  err = json.Unmarshal(body, &v)
  if err != nil { return nil, errors.New(...) }
  userNameACL := authData.Username
  if s.config.AuthURLAssumeUniqueUsernames {
    userNameACL = strings.Split(authData.Username, "@")[0]
  }
  userACL, found := s.users.Get(userNameACL)
  if !found {
    _ = s.users.LoadUserIndex()
    userACL, found = s.users.Get(userNameACL)
    if !found { return nil, errors.New(...) }
  }
  user := &chshare.User{Name: ..., Pass: ..., Addrs: userACL.Addrs}
  s.sessions.Set(string(c.SessionID()), user)
  return nil, nil
}
return nil, errors.New("Invalid authentication for username: %s")
```
-/
def authUserURL (assumeUnique : Bool) (jsonValid : String → Bool)
    (store reloadedStore : Store) (sessions : Sessions)
    (username password sessionID : String)
    (marshalOk : Bool) (post : Option HTTPResp) : AuthURLResult :=
  if !marshalOk then
    ⟨sessions, .error "Invalid authentication for username: %s", 0⟩
  else
    match post with
    | none => ⟨sessions, .error "Invalid authentication for username: %s", 0⟩
    | some resp =>
      if 200 ≤ resp.status ∧ resp.status < 300 then
        match resp.body with
        | none => ⟨sessions, .error "Invalid authentication for username: %s", 0⟩
        | some body =>
          if jsonValid body then
            let key := userNameACLkey assumeUnique username
            match storeGet store key with
            | some userACL =>
              ⟨sessionsSet sessions sessionID ⟨username, password, userACL.addrs⟩,
               .ok (), 0⟩
            | none =>
              match storeGet reloadedStore key with
              | some userACL =>
                ⟨sessionsSet sessions sessionID ⟨username, password, userACL.addrs⟩,
                 .ok (), 1⟩
              | none =>
                ⟨sessions, .error "Invalid authentication for username: %s", 1⟩
          else
            ⟨sessions, .error "Invalid authentication for username: %s", 0⟩
      else
        ⟨sessions, .error "Invalid authentication for username: %s", 0⟩

/-- The compilation loop of `Server.AddUser`: compile each supplied address
pattern in order, stopping at the first failure (`regexp.Compile` is
external and passed in as `compile`). -/
def compileAddrs (compile : String → Option Regexp) : List String → Option (List Regexp)
  | [] => some []
  | a :: rest =>
    match compile a with
    | none => none
    | some r =>
      match compileAddrs compile rest with
      | none => none
      | some rs => some (r :: rs)

/-- `Server.AddUser(user, pass, addrs...)`: compile every pattern; on the
first failure return the error and leave the store untouched; otherwise add
the user with the compiled patterns.  Returns the (possibly updated) store
and `none` for success / `some msg` for the compile error. -/
def serverAddUser (compile : String → Option Regexp) (store : Store)
    (user pass : String) (addrs : List String) : Store × Option String :=
  match compileAddrs compile addrs with
  | none => (store, some "regexp compile error")
  | some rs => (storeAddUser store ⟨user, pass, rs⟩, none)

/-- A parsed URL, as used for the proxy target: scheme and host. -/
structure URLg where
  scheme : String
  host : String
  deriving DecidableEq, Repr

/-- An HTTP request as seen by the reverse-proxy director: the URL fields
it touches (`r.URL.Scheme`, `r.URL.Host`, `r.URL.Path`), the top-level
`r.Host`, and the remaining fields it never mentions. -/
structure Request where
  urlScheme : String
  urlHost : String
  urlPath : String
  host : String
  method : String
  headers : List (String × String)
  body : String
  deriving DecidableEq, Repr

/-- The reverse-proxy `Director` installed by `NewServer`:
```
r.URL.Scheme = u.Scheme
r.URL.Host = u.Host
r.Host = u.Host
```
-/
def proxyDirector (u : URLg) (r : Request) : Request :=
  { r with urlScheme := u.scheme, urlHost := u.host, host := u.host }

/-- The configuration consumed by `NewServer` (fields of `Config` that the
embedded code reads). -/
structure Config where
  keySeed : String
  authFile : String
  authURL : String
  authURLCaCert : String
  authURLAssumeUniqueUsernames : Bool
  auth : String
  proxy : String
  reverse : Bool
  deriving Repr

/-- Outcomes of the external effects `NewServer` performs, passed in as
parameters: credential-file loading, inline-auth parsing, key
generation/parsing, CA-file reading, `AppendCertsFromPEM`, and URL
parsing. -/
structure Effects where
  loadUsers : String → Except String Store
  parseAuth : String → String × String
  keyGenOk : Bool
  keyParseOk : Bool
  readFile : String → Option String
  appendCertsOk : String → Bool
  parseURL : String → Option URLg

/-- What `NewServer` ends in: `fatalExit` models `log.Fatal`/`log.Fatalf`
(the process aborts), `err` a `return nil, err`, and `ok` a constructed
server with its user index, whether the "No certs appended" warning was
logged, whether the password callback is `authUserURL`, and the installed
reverse-proxy target. -/
inductive NewServerResult where
  | fatalExit
  | err (msg : String)
  | ok (users : Store) (caWarning : Bool) (authViaURL : Bool)
       (reverseProxy : Option URLg)
  deriving DecidableEq, Repr

/-- The inline-auth block of `NewServer`:
```
if c.Auth != "" {
  u := &settings.User{Addrs: []*regexp.Regexp{settings.UserAllowAll}}
  u.Name, u.Pass = settings.ParseAuth(c.Auth)
  if u.Name != "" { server.users.AddUser(u) }
}
```
-/
def inlineAuthStep (parseAuth : String → String × String)
    (store : Store) (auth : String) : Store :=
  if auth ≠ "" then
    let np := parseAuth auth
    if np.1 ≠ "" then storeAddUser store ⟨np.1, np.2, [UserAllowAll]⟩ else store
  else store

/-- The `AuthURL` block of `NewServer` restricted to the CA-certificate
handling: `none` models the `log.Fatalf` on a read failure; `some w`
continues with `w` recording whether `AppendCertsFromPEM` failed and the
"No certs appended, using system certs only" warning was logged. -/
def authURLStep (cfg : Config) (fx : Effects) : Option Bool :=
  if cfg.authURL ≠ "" then
    if cfg.authURLCaCert ≠ "" then
      match fx.readFile cfg.authURLCaCert with
      | none => none
      | some certs => some (!fx.appendCertsOk certs)
    else some false
  else some false

/-- `NewServer`, with each external effect's outcome supplied through
`fx`.  Follows the source order: load the auth file, apply the inline
auth entry, generate and parse the host key, set up the AuthURL client
(fatal on a CA read failure), then validate and install the proxy
target. -/
def NewServer (cfg : Config) (fx : Effects) : NewServerResult :=
  match (if cfg.authFile ≠ "" then fx.loadUsers cfg.authFile else .ok []) with
  | .error e => .err e
  | .ok users0 =>
    let users1 := inlineAuthStep fx.parseAuth users0 cfg.auth
    if !fx.keyGenOk then .fatalExit
    else if !fx.keyParseOk then .fatalExit
    else
      match authURLStep cfg fx with
      | none => .fatalExit
      | some caWarning =>
        if cfg.proxy ≠ "" then
          match fx.parseURL cfg.proxy with
          | none => .err "url parse error"
          | some u =>
            if u.host = "" then .err "Missing protocol"
            else .ok users1 caWarning (cfg.authURL ≠ "") (some u)
        else .ok users1 caWarning (cfg.authURL ≠ "") none

/-! ## Helper lemmas -/

instance : DecidableEq (Except String Unit) := fun a b =>
  match a, b with
  | .ok (), .ok () => .isTrue rfl
  | .ok (), .error _ => .isFalse (fun hc => Except.noConfusion hc)
  | .error _, .ok () => .isFalse (fun hc => Except.noConfusion hc)
  | .error x, .error y =>
    if h : x = y then .isTrue (by rw [h])
    else .isFalse (fun hc => h (Except.error.inj hc))

theorem sessionsGet_set (sessions : Sessions) (id : String) (u : User) :
    sessionsGet (sessionsSet sessions id u) id = some u := by
  simp [sessionsGet, sessionsSet, List.find?]

/-! ## Claims -/

/-- C1: For the Local strategy, if the credential store is empty
(`Len() == 0`), `verify(username, password, sessionID)` succeeds for every
username and password, returning no error, and records no entry in the
session registry. -/
theorem local_empty_store_accepts (store : Store) (sessions : Sessions)
    (username password sessionID : String) (h : storeLen store = 0) :
    authUser store sessions username password sessionID = (sessions, .ok ()) := by
  simp [authUser, h]

/-- Witness for C1 at a concrete empty store. -/
theorem local_empty_store_accepts_witness :
    authUser [] [("old", ⟨"x", "y", []⟩)] "anyone" "anything" "sid"
      = ([("old", ⟨"x", "y", []⟩)], .ok ()) :=
  local_empty_store_accepts [] [("old", ⟨"x", "y", []⟩)] "anyone" "anything" "sid" rfl

/-- C2: For the Local strategy with a non-empty credential store, `verify`
succeeds iff the store maps the username to a user whose stored password is
exactly the supplied password; on success it binds the session ID to that
user in the session registry, and on failure it leaves the registry
unchanged (so no entry is created for the session ID). -/
theorem local_nonempty_auth (store : Store) (sessions : Sessions)
    (username password sessionID : String) (h : storeLen store ≠ 0) :
    ((authUser store sessions username password sessionID).2 = .ok () ↔
       ∃ u, storeGet store username = some u ∧ u.pass = password) ∧
    (∀ u, storeGet store username = some u → u.pass = password →
       (authUser store sessions username password sessionID).1
         = sessionsSet sessions sessionID u ∧
       sessionsGet (authUser store sessions username password sessionID).1 sessionID
         = some u) ∧
    ((authUser store sessions username password sessionID).2 ≠ .ok () →
       (authUser store sessions username password sessionID).1 = sessions) := by
  cases hg : storeGet store username with
  | none => simp [authUser, h, hg]
  | some u =>
    by_cases hp : u.pass = password
    · simp [authUser, h, hg, hp, sessionsGet_set]
    · simp [authUser, h, hg, hp]

/-- Witness for C2: with store `alice:secret`, the right password is
accepted and bound; a wrong password is rejected with the registry left
unchanged. -/
theorem local_nonempty_auth_witness :
    (authUser [⟨"alice", "secret", []⟩] [] "alice" "secret" "sid").2 = .ok () ∧
    (authUser [⟨"alice", "secret", []⟩] [] "alice" "wrong" "sid").1 = [] :=
  ⟨(local_nonempty_auth [⟨"alice", "secret", []⟩] [] "alice" "secret" "sid"
      (by decide)).1.mpr ⟨⟨"alice", "secret", []⟩, by decide, rfl⟩,
   (local_nonempty_auth [⟨"alice", "secret", []⟩] [] "alice" "wrong" "sid"
      (by decide)).2.2 (by decide)⟩

/-- C3: For the RemoteURL strategy, whenever the remote endpoint's HTTP
status code is outside 200–299, `verify` fails with the authentication
error for every response body, and the session registry is unchanged (so
no entry is created for the session ID). -/
theorem remoteurl_non2xx_fails (assumeUnique : Bool) (jsonValid : String → Bool)
    (store reloadedStore : Store) (sessions : Sessions)
    (username password sessionID : String) (marshalOk : Bool) (resp : HTTPResp)
    (h : resp.status < 200 ∨ 300 ≤ resp.status) :
    (authUserURL assumeUnique jsonValid store reloadedStore sessions
        username password sessionID marshalOk (some resp)).result
      = .error "Invalid authentication for username: %s" ∧
    (authUserURL assumeUnique jsonValid store reloadedStore sessions
        username password sessionID marshalOk (some resp)).sessions = sessions := by
  have hcond : ¬(200 ≤ resp.status ∧ resp.status < 300) := by omega
  cases marshalOk <;> simp [authUserURL, hcond]

/-- Witness for C3 at a concrete 403 response with a well-formed body. -/
theorem remoteurl_non2xx_fails_witness :
    (authUserURL true (fun _ => true) [⟨"bob", "", []⟩] [] [] "bob" "pw" "sid"
        true (some ⟨403, some "body"⟩)).result
      = .error "Invalid authentication for username: %s" :=
  (remoteurl_non2xx_fails true (fun _ => true) [⟨"bob", "", []⟩] [] [] "bob" "pw"
      "sid" true ⟨403, some "body"⟩ (by decide)).1

/-- C4: For the RemoteURL strategy, when the computed ACL key is absent
from the store, exactly one reload is performed and the lookup retried
exactly once (failing if still absent); the reload count is 0 when the
first lookup succeeds, and never exceeds 1 on any input. -/
theorem remoteurl_reload_once (assumeUnique : Bool) (jsonValid : String → Bool)
    (store reloadedStore : Store) (sessions : Sessions)
    (username password sessionID : String) (resp : HTTPResp) (b : String)
    (h2xx : 200 ≤ resp.status ∧ resp.status < 300)
    (hb : resp.body = some b) (hjson : jsonValid b = true) :
    (∀ u, storeGet store (userNameACLkey assumeUnique username) = some u →
       (authUserURL assumeUnique jsonValid store reloadedStore sessions
           username password sessionID true (some resp)).reloads = 0 ∧
       (authUserURL assumeUnique jsonValid store reloadedStore sessions
           username password sessionID true (some resp)).result = .ok ()) ∧
    (storeGet store (userNameACLkey assumeUnique username) = none →
       (authUserURL assumeUnique jsonValid store reloadedStore sessions
           username password sessionID true (some resp)).reloads = 1 ∧
       (storeGet reloadedStore (userNameACLkey assumeUnique username) = none →
          (authUserURL assumeUnique jsonValid store reloadedStore sessions
              username password sessionID true (some resp)).result
            = .error "Invalid authentication for username: %s") ∧
       (∀ u, storeGet reloadedStore (userNameACLkey assumeUnique username) = some u →
          (authUserURL assumeUnique jsonValid store reloadedStore sessions
              username password sessionID true (some resp)).result = .ok ())) ∧
    (∀ (marshalOk : Bool) (post : Option HTTPResp),
       (authUserURL assumeUnique jsonValid store reloadedStore sessions
           username password sessionID marshalOk post).reloads ≤ 1) := by
  refine ⟨?_, ?_, ?_⟩
  · intro u hu
    simp [authUserURL, h2xx, hb, hjson, hu]
  · intro hnone
    cases hr : storeGet reloadedStore (userNameACLkey assumeUnique username) with
    | none =>
      simp [authUserURL, h2xx, hb, hjson, hnone, hr]
    | some u =>
      simp [authUserURL, h2xx, hb, hjson, hnone, hr]
  · intro marshalOk post
    cases marshalOk with
    | false => simp [authUserURL]
    | true =>
      cases post with
      | none => simp [authUserURL]
      | some r =>
        by_cases hc : 200 ≤ r.status ∧ r.status < 300
        · cases hbody : r.body with
          | none => simp [authUserURL, hc, hbody]
          | some bb =>
            by_cases hj : jsonValid bb
            · cases hs : storeGet store (userNameACLkey assumeUnique username) with
              | none =>
                cases hs2 : storeGet reloadedStore (userNameACLkey assumeUnique username) with
                | none => simp [authUserURL, hc, hbody, hj, hs, hs2]
                | some u => simp [authUserURL, hc, hbody, hj, hs, hs2]
              | some u => simp [authUserURL, hc, hbody, hj, hs]
            · simp [authUserURL, hc, hbody, hj]
        · simp [authUserURL, hc]

/-- Witness for C4: a 200 response for a user missing from the first store
snapshot and present after the reload. -/
theorem remoteurl_reload_once_witness :
    (authUserURL false (fun _ => true) [] [⟨"bob", "", []⟩] [] "bob" "pw" "sid"
        true (some ⟨200, some "ok"⟩)).reloads = 1 ∧
    (authUserURL false (fun _ => true) [] [⟨"bob", "", []⟩] [] "bob" "pw" "sid"
        true (some ⟨200, some "ok"⟩)).result = .ok () :=
  ⟨((remoteurl_reload_once false (fun _ => true) [] [⟨"bob", "", []⟩] [] "bob" "pw"
      "sid" ⟨200, some "ok"⟩ "ok" (by decide) rfl rfl).2.1 (by decide)).1,
   ((remoteurl_reload_once false (fun _ => true) [] [⟨"bob", "", []⟩] [] "bob" "pw"
      "sid" ⟨200, some "ok"⟩ "ok" (by decide) rfl rfl).2.1 (by decide)).2.2
     ⟨"bob", "", []⟩ (by decide)⟩

/-- The specification's description of the ACL key: the prefix of the
character list up to (excluding) the first occurrence of `sep`. -/
def prefixUntil (sep : Char) : List Char → List Char
  | [] => []
  | c :: cs => if c = sep then [] else c :: prefixUntil sep cs

theorem goSplit_head (sep : Char) (l : List Char) :
    ∃ rest, goSplit sep l = prefixUntil sep l :: rest := by
  induction l with
  | nil => exact ⟨[], rfl⟩
  | cons c cs ih =>
    obtain ⟨r, hr⟩ := ih
    by_cases hc : c = sep
    · refine ⟨prefixUntil sep cs :: r, ?_⟩
      simp only [goSplit, hr, prefixUntil, if_pos hc]
    · refine ⟨r, ?_⟩
      simp only [goSplit, hr, prefixUntil, if_neg hc]

theorem prefixUntil_eq_self (sep : Char) (l : List Char) (h : sep ∉ l) :
    prefixUntil sep l = l := by
  induction l with
  | nil => rfl
  | cons c cs ih =>
    simp only [List.mem_cons, not_or] at h
    simp [prefixUntil, Ne.symm h.1, ih h.2]

/-- C5: For the RemoteURL strategy, the ACL lookup key is the prefix of the
username up to (excluding) the first `@` when `AuthURLAssumeUniqueUsernames`
is true (the whole username when it contains no `@`), and the username
verbatim when the flag is false. -/
theorem aclkey_correct (username : String) :
    userNameACLkey true username = ⟨prefixUntil '@' username.data⟩ ∧
    userNameACLkey false username = username ∧
    ('@' ∉ username.data → userNameACLkey true username = username) := by
  obtain ⟨r, hr⟩ := goSplit_head '@' username.data
  refine ⟨by simp [userNameACLkey, hr], rfl, ?_⟩
  intro hnot
  simp [userNameACLkey, hr, prefixUntil_eq_self '@' username.data hnot]

/-- Witness for C5: the key for `bob@example.com` is `bob`; a username
without `@` is used whole. -/
theorem aclkey_correct_witness :
    userNameACLkey true "bob@example.com" = "bob" ∧
    userNameACLkey true "alice" = "alice" :=
  ⟨((aclkey_correct "bob@example.com").1).trans (by decide),
   (aclkey_correct "alice").2.2 (by decide)⟩

theorem compileAddrs_eq_none (compile : String → Option Regexp)
    (addrs : List String) (h : ∃ a ∈ addrs, compile a = none) :
    compileAddrs compile addrs = none := by
  induction addrs with
  | nil => simp at h
  | cons a rest ih =>
    obtain ⟨x, hx, hxc⟩ := h
    rcases List.mem_cons.mp hx with hxa | hxr
    · subst hxa
      simp [compileAddrs, hxc]
    · cases hca : compile a with
      | none => simp [compileAddrs, hca]
      | some r => simp [compileAddrs, hca, ih ⟨x, hxr, hxc⟩]

theorem compileAddrs_eq_some (compile : String → Option Regexp)
    (addrs : List String) (h : ∀ a ∈ addrs, compile a ≠ none) :
    compileAddrs compile addrs = some (addrs.filterMap compile) := by
  induction addrs with
  | nil => rfl
  | cons a rest ih =>
    cases hca : compile a with
    | none => exact absurd hca (h a (List.mem_cons_self a rest))
    | some r =>
      have hrest := ih (fun x hx => h x (List.mem_cons_of_mem a hx))
      simp [compileAddrs, hca, hrest, List.filterMap_cons]

theorem find_map_replace (u : User) (store : Store)
    (h : store.any (fun v => v.name = u.name) = true) :
    List.find? (fun v => v.name = u.name)
      (store.map (fun v => if v.name = u.name then u else v)) = some u := by
  induction store with
  | nil => simp at h
  | cons v rest ih =>
    by_cases hv : v.name = u.name
    · simp [List.find?, hv]
    · simp only [List.any_cons, Bool.or_eq_true, decide_eq_true_eq] at h
      rcases h with h | h

      · exact absurd h hv
      · simp only [List.map_cons, if_neg hv, List.find?]
        rw [decide_eq_false hv]
        exact ih h

theorem storeGet_addUser (store : Store) (u : User) :
    storeGet (storeAddUser store u) u.name = some u := by
  unfold storeGet storeAddUser
  by_cases h : store.any (fun v => v.name = u.name) = true
  · simp only [h, if_true]
    exact find_map_replace u store h
  · rw [Bool.not_eq_true] at h
    simp only [h, Bool.false_eq_true, if_false]
    rw [List.find?_append]
    have hn : List.find? (fun v => v.name = u.name) store = none := by
      rw [List.find?_eq_none]
      intro x hx hxp
      have hany : (store.any fun v => v.name = u.name) = true := by
        rw [List.any_eq_true]
        exact ⟨x, hx, hxp⟩
      rw [h] at hany
      simp at hany
    simp [hn, List.find?]

/-- C6: `AddUser(user, pass, addrs...)` compiles every supplied address
pattern; if any pattern fails to compile it returns an error and leaves the
store exactly unchanged; if all patterns compile, the user is added with
the compiled patterns in the supplied order (and is subsequently found
under that name). -/
theorem addUser_all_or_nothing (compile : String → Option Regexp)
    (store : Store) (user pass : String) (addrs : List String) :
    ((∃ a ∈ addrs, compile a = none) →
       serverAddUser compile store user pass addrs
         = (store, some "regexp compile error")) ∧
    ((∀ a ∈ addrs, compile a ≠ none) →
       serverAddUser compile store user pass addrs
         = (storeAddUser store ⟨user, pass, addrs.filterMap compile⟩, none) ∧
       storeGet (serverAddUser compile store user pass addrs).1 user
         = some ⟨user, pass, addrs.filterMap compile⟩) := by
  constructor
  · intro h
    simp [serverAddUser, compileAddrs_eq_none compile addrs h]
  · intro h
    have hc := compileAddrs_eq_some compile addrs h
    refine ⟨by simp [serverAddUser, hc], ?_⟩
    have := storeGet_addUser store ⟨user, pass, addrs.filterMap compile⟩
    simpa [serverAddUser, hc] using this

/-- Witness for C6: the invalid pattern `"("` is rejected with the store
unchanged; two valid patterns are installed in order. -/
theorem addUser_all_or_nothing_witness :
    serverAddUser (fun s => if s = "(" then none else some s)
        [⟨"old", "pw", []⟩] "u" "p" ["(", "ok"]
      = ([⟨"old", "pw", []⟩], some "regexp compile error") ∧
    serverAddUser (fun s => if s = "(" then none else some s)
        [] "u" "p" ["a", "b"]
      = ([⟨"u", "p", ["a", "b"]⟩], none) :=
  ⟨(addUser_all_or_nothing (fun s => if s = "(" then none else some s)
      [⟨"old", "pw", []⟩] "u" "p" ["(", "ok"]).1 ⟨"(", by decide, by decide⟩,
   ((addUser_all_or_nothing (fun s => if s = "(" then none else some s)
      [] "u" "p" ["a", "b"]).2 (by decide)).1.trans (by decide)⟩

/-- A configuration with an auth URL and a CA-certificate path and nothing
else set. -/
def cfgAuthCA : Config :=
  { keySeed := "", authFile := "", authURL := "https://auth.example/verify",
    authURLCaCert := "/etc/chisel/ca.pem", authURLAssumeUniqueUsernames := false,
    auth := "", proxy := "", reverse := false }

/-- Effects in which the CA file reads successfully but
`AppendCertsFromPEM` fails (returns false), and everything else
succeeds. -/
def fxAppendFails : Effects :=
  { loadUsers := fun _ => .ok [], parseAuth := fun _ => ("", ""),
    keyGenOk := true, keyParseOk := true,
    readFile := fun _ => some "NOT A PEM", appendCertsOk := fun _ => false,
    parseURL := fun _ => none }

/-- C7 counterexample: with a configured AuthURL and CA path, when the CA
file is read successfully but appending it to the trust pool fails,
`NewServer` still returns a running server (with only the warning logged)
— refuting the claim that an append failure prevents a server from being
returned. -/
theorem newServer_appendFail_still_returns_server :
    NewServer cfgAuthCA fxAppendFails = .ok [] true true none := by
  decide

/-- C7 amended: with an AuthURL and CA path configured (and the earlier
startup steps succeeding), a failure to READ the CA file is a startup
fatal error, while a failure to APPEND it merely logs the "No certs
appended" warning and the server is still constructed. -/
theorem newServer_caCert_read_fatal (cfg : Config) (fx : Effects)
    (hurl : cfg.authURL ≠ "") (hca : cfg.authURLCaCert ≠ "")
    (hload : ∃ us, (if cfg.authFile ≠ "" then fx.loadUsers cfg.authFile
                    else .ok []) = .ok us)
    (hkg : fx.keyGenOk = true) (hkp : fx.keyParseOk = true) :
    (fx.readFile cfg.authURLCaCert = none → NewServer cfg fx = .fatalExit) ∧
    (∀ certs, fx.readFile cfg.authURLCaCert = some certs →
       fx.appendCertsOk certs = false → cfg.proxy = "" →
       ∃ us, NewServer cfg fx = .ok us true true none) := by
  obtain ⟨us, hus⟩ := hload
  constructor
  · intro hread
    simp [NewServer, hus, hkg, hkp, authURLStep, hurl, hca, hread]
  · intro certs hread happ hproxy
    refine ⟨inlineAuthStep fx.parseAuth us cfg.auth, ?_⟩
    simp [NewServer, hus, hkg, hkp, authURLStep, hurl, hca, hread, happ, hproxy]

/-- Witness for the amended C7: a concrete config where the CA read fails
is fatal, and the concrete append-failure config yields a server. -/
theorem newServer_caCert_read_fatal_witness :
    NewServer cfgAuthCA
      { fxAppendFails with readFile := fun _ => none } = .fatalExit ∧
    ∃ us, NewServer cfgAuthCA fxAppendFails = .ok us true true none :=
  ⟨(newServer_caCert_read_fatal cfgAuthCA
      { fxAppendFails with readFile := fun _ => none }
      (by decide) (by decide) ⟨[], rfl⟩ rfl rfl).1 rfl,
   (newServer_caCert_read_fatal cfgAuthCA fxAppendFails
      (by decide) (by decide) ⟨[], rfl⟩ rfl rfl).2 "NOT A PEM" rfl rfl rfl⟩

/-- C8: The reverse-proxy director rewrites the request's URL scheme, URL
host, and Host field to the configured backend's scheme and host, whatever
the inbound request carried, and leaves the path and every other request
field unchanged; and `NewServer` never returns a server when the
configured proxy URL parses with an empty host. -/
theorem proxy_director_rewrites (u : URLg) (r : Request) :
    ((proxyDirector u r).urlScheme = u.scheme ∧
     (proxyDirector u r).urlHost = u.host ∧
     (proxyDirector u r).host = u.host) ∧
    ((proxyDirector u r).urlPath = r.urlPath ∧
     (proxyDirector u r).method = r.method ∧
     (proxyDirector u r).headers = r.headers ∧
     (proxyDirector u r).body = r.body) ∧
    (∀ (cfg : Config) (fx : Effects) (pu : URLg),
       cfg.proxy ≠ "" → fx.parseURL cfg.proxy = some pu → pu.host = "" →
       ∀ us cw av rp, NewServer cfg fx ≠ .ok us cw av rp) := by
  refine ⟨⟨rfl, rfl, rfl⟩, ⟨rfl, rfl, rfl, rfl⟩, ?_⟩
  intro cfg fx pu hproxy hparse hhost us cw av rp
  unfold NewServer
  cases hload : (if cfg.authFile ≠ "" then fx.loadUsers cfg.authFile
                 else .ok []) with
  | error e => simp
  | ok us0 =>
    cases hkg : fx.keyGenOk with
    | false => simp
    | true =>
      cases hkp : fx.keyParseOk with
      | false => simp
      | true =>
        cases hstep : authURLStep cfg fx with
        | none => simp
        | some w => simp [hproxy, hparse, hhost]

/-- A configuration whose proxy URL parses to an empty host. -/
def cfgProxyEmptyHost : Config :=
  { cfgAuthCA with authURL := "", authURLCaCert := "", proxy := "scheme-only" }

/-- Effects under which URL parsing yields a host-less URL. -/
def fxProxyEmptyHost : Effects :=
  { fxAppendFails with parseURL := fun _ => some ⟨"http", ""⟩ }

/-- Witness for C8 at a concrete backend, request, and empty-host
configuration. -/
theorem proxy_director_rewrites_witness :
    (proxyDirector ⟨"https", "backend.example:8443"⟩
        ⟨"http", "evil.example", "/path", "evil.example", "GET", [], "b"⟩).host
      = "backend.example:8443" ∧
    NewServer cfgProxyEmptyHost fxProxyEmptyHost ≠ .ok [] false false none :=
  ⟨(proxy_director_rewrites ⟨"https", "backend.example:8443"⟩
      ⟨"http", "evil.example", "/path", "evil.example", "GET", [], "b"⟩).1.2.2,
   (proxy_director_rewrites ⟨"https", "backend.example:8443"⟩
      ⟨"http", "evil.example", "/path", "evil.example", "GET", [], "b"⟩).2.2
      cfgProxyEmptyHost fxProxyEmptyHost
      ⟨"http", ""⟩ (by decide) rfl rfl [] false false none⟩

/-- C9: Every failure path of both verification strategies returns the one
fixed error value `"Invalid authentication for username: %s"`; the error is
therefore independent of which failure occurred and of the supplied
credentials (any two failing runs yield identical errors). -/
theorem auth_failure_uniform :
    (∀ (store : Store) (sessions : Sessions)
       (username password sessionID e : String),
       (authUser store sessions username password sessionID).2 = .error e →
       e = "Invalid authentication for username: %s") ∧
    (∀ (assumeUnique : Bool) (jsonValid : String → Bool)
       (store reloadedStore : Store) (sessions : Sessions)
       (username password sessionID : String)
       (marshalOk : Bool) (post : Option HTTPResp) (e : String),
       (authUserURL assumeUnique jsonValid store reloadedStore sessions
           username password sessionID marshalOk post).result = .error e →
       e = "Invalid authentication for username: %s") := by
  constructor
  · intro store sessions username password sessionID e h
    unfold authUser at h
    repeat' split at h
    all_goals simp_all
  · intro assumeUnique jsonValid store reloadedStore sessions username password
      sessionID marshalOk post e h
    cases marshalOk with
    | false => simp [authUserURL] at h; simp_all
    | true =>
      cases post with
      | none => simp [authUserURL] at h; simp_all
      | some r =>
        by_cases hc : 200 ≤ r.status ∧ r.status < 300
        · cases hbody : r.body with
          | none => simp [authUserURL, hc, hbody] at h; simp_all
          | some bb =>
            by_cases hj : jsonValid bb
            · cases hs : storeGet store (userNameACLkey assumeUnique username) with
              | none =>
                cases hs2 : storeGet reloadedStore
                    (userNameACLkey assumeUnique username) with
                | none =>
                  simp [authUserURL, hc, hbody, hj, hs, hs2] at h
                  simp_all
                | some u => simp [authUserURL, hc, hbody, hj, hs, hs2] at h
              | some u => simp [authUserURL, hc, hbody, hj, hs] at h
            · simp [authUserURL, hc, hbody, hj] at h; simp_all
        · simp [authUserURL, hc] at h; simp_all

/-- Witness for C9: a concrete Local failure and a concrete RemoteURL
failure both carry the same fixed message. -/
theorem auth_failure_uniform_witness :
    "Invalid authentication for username: %s"
      = "Invalid authentication for username: %s" ∧
    "Invalid authentication for username: %s"
      = "Invalid authentication for username: %s" :=
  ⟨auth_failure_uniform.1 [⟨"alice", "secret", []⟩] [] "eve" "x" "sid"
     "Invalid authentication for username: %s" (by decide),
   auth_failure_uniform.2 false (fun _ => true) [] [] [] "eve" "x" "sid" true
     none "Invalid authentication for username: %s" (by decide)⟩

/-- C10: With an inline `Auth` credential configured, the parsed user is
added to the store only when the parsed name is non-empty (an empty name is
silently ignored), and a user added this way always carries exactly the
single allow-all address pattern. -/
theorem inline_auth_allowall (parseAuth : String → String × String)
    (store : Store) (auth : String) (h : auth ≠ "") :
    ((parseAuth auth).1 = "" → inlineAuthStep parseAuth store auth = store) ∧
    ((parseAuth auth).1 ≠ "" →
       inlineAuthStep parseAuth store auth
         = storeAddUser store
             ⟨(parseAuth auth).1, (parseAuth auth).2, [UserAllowAll]⟩ ∧
       storeGet (inlineAuthStep parseAuth store auth) (parseAuth auth).1
         = some ⟨(parseAuth auth).1, (parseAuth auth).2, [UserAllowAll]⟩) := by
  constructor
  · intro hn
    simp [inlineAuthStep, h, hn]
  · intro hn
    have he : inlineAuthStep parseAuth store auth
        = storeAddUser store
            ⟨(parseAuth auth).1, (parseAuth auth).2, [UserAllowAll]⟩ := by
      simp [inlineAuthStep, h, hn]
    refine ⟨he, ?_⟩
    rw [he]
    exact storeGet_addUser store
      ⟨(parseAuth auth).1, (parseAuth auth).2, [UserAllowAll]⟩

/-- Witness for C10: a parse yielding `bob`/`pw` adds the one allow-all
user; a parse yielding an empty name leaves the store untouched. -/
theorem inline_auth_allowall_witness :
    inlineAuthStep (fun _ => ("bob", "pw")) [] "bob:pw"
      = [⟨"bob", "pw", [UserAllowAll]⟩] ∧
    inlineAuthStep (fun _ => ("", "pw")) [] ":pw" = [] :=
  ⟨((inline_auth_allowall (fun _ => ("bob", "pw")) [] "bob:pw"
      (by decide)).2 (by decide)).1.trans (by decide),
   (inline_auth_allowall (fun _ => ("", "pw")) [] ":pw" (by decide)).1 rfl⟩

end ChServer
